import Mathlib

/-!
Verification of the high-level robot control software (serial command
multiplexer and particle-filter localizer) against its specification.

The serial layer is embedded from `qwe/comm/serial_interface.py`; the
particle filter from `localizer/particles.py`.  Randomness (Python
`random()`, `random.gauss`, `random.randrange`) is made explicit: each
random draw becomes an input of the embedded function.
-/

namespace HighLevel

/-! ### Serial multiplexer: JSON-ish response objects

A firmware response is parsed with `json.loads` into a dict.  We model the
dict as an association list of string keys and primitive values, which is
enough for the fields the multiplexer touches. -/

inductive JVal where
  | jint (n : Int)
  | jbool (b : Bool)
  | jstr (s : String)
deriving DecidableEq, Repr

abbrev JObj := List (String × JVal)

/-- Python `d.get(k, dflt)`. -/
def dictGet (d : JObj) (k : String) (dflt : JVal) : JVal :=
  match d.lookup k with
  | some v => v
  | none => dflt

/-- Python `self.responses[key] = response` on the shared response map
(dict assignment: overwrite any previous binding of the key). -/
def storeResponse (rm : List (JVal × JObj)) (k : JVal) (d : JObj) :
    List (JVal × JObj) :=
  (k, d) :: rm.filter (fun p => p.1 ≠ k)

def lookupResponse (rm : List (JVal × JObj)) (k : JVal) : Option JObj :=
  rm.lookup k

/-- Result of one `recv()` call: `ioError` models `recv` returning `None`
(read or parse failure); `line d` models a parsed dict (the empty dict
stands for a blank line / timeout). -/
inductive RecvResult where
  | ioError
  | line (d : JObj)
deriving DecidableEq, Repr

/-- One iteration of `SerialInterface.recvLoop` acting on the response
map: `None` breaks the loop; a blank dict loops; a non-blank response is
stored under `response.get('id', -1)`.  Returns the new map and whether
the loop continues. -/
def recvLoopBody (rm : List (JVal × JObj)) (res : RecvResult) :
    List (JVal × JObj) × Bool :=
  match res with
  | .ioError => (rm, false)
  | .line d =>
      if d.isEmpty then (rm, true)
      else (storeResponse rm (dictGet d "id" (.jint (-1))) d, true)

/-- The store step of `SerialInterface.execLoop` for the command that was
sent with id `sentId`: a non-blank response is stored under
`response.get('id', id)` where `id` is the sent command's id. -/
def execLoopBody (rm : List (JVal × JObj)) (sentId : Int) (res : RecvResult) :
    List (JVal × JObj) × Bool :=
  match res with
  | .ioError => (rm, false)
  | .line d =>
      if d.isEmpty then (rm, true)
      else (storeResponse rm (dictGet d "id" (.jint sentId)) d, true)

/-! ### Command queue and the two quit paths -/

def max_command_id : Nat := 32767

/-- `SerialInterface.quit`: `self.commands.put((-1, "quit"))`. -/
def interfaceQuit (q : List (Int × String)) : List (Int × String) :=
  q ++ [((-1 : Int), "quit")]

/-- `SerialCommand.putCommand`: `id = random.randrange(max_command_id)`
then `self.commands.put((id, command))`.  The random draw is the
explicit argument `rid` with `rid < max_command_id`. -/
def putCommand (q : List (Int × String)) (rid : Nat) (command : String) :
    List (Int × String) :=
  q ++ [((rid : Int), command)]

/-- `SerialCommand.quit`: `self.putCommand("quit")`. -/
def commandQuit (q : List (Int × String)) (rid : Nat) : List (Int × String) :=
  putCommand q rid "quit"

/-! ### Domain command wrappers (`SerialCommand`)

Each wrapper sends a textual command and reads specific fields of the
response dict with a default.  We model the response fields the wrappers
read as typed optional fields; `none` is an absent field. -/

structure SCResponse where
  result : Option Bool := none
  distance : Option Int := none
  absHeading : Option Int := none
  headingErr : Option Int := none
  data : Option Int := none
deriving DecidableEq, Repr

/-- `botStop`: `return response.get('result', False)`. -/
def botStop (r : SCResponse) : Bool :=
  r.result.getD false

/-- `botPWMDrive(left, right)`: `return response.get('result', False)`. -/
def botPWMDrive (_left _right : Int) (r : SCResponse) : Bool :=
  r.result.getD false

/-- `botSet(distance, angle, speed)`: returns
`(int(response.get('distance', distance)), int(response.get('absHeading', angle)))`. -/
def botSet (distance angle : Int) (r : SCResponse) : Int × Int :=
  (r.distance.getD distance, r.absHeading.getD angle)

/-- `botMove(distance, speed)`: `return int(response.get('distance', distance))`. -/
def botMove (distance : Int) (r : SCResponse) : Int :=
  r.distance.getD distance

/-- `botFollow(distance, speed, which)`: `return int(response.get('distance', distance))`. -/
def botFollow (distance : Int) (r : SCResponse) : Int :=
  r.distance.getD distance

/-- `botTurnAbs(angle)`: `return response.get('absHeading', angle)`. -/
def botTurnAbs (angle : Int) (r : SCResponse) : Int :=
  r.absHeading.getD angle

/-- `botTurnRel(angle)`: `return (angle - response.get('headingErr', 0))`. -/
def botTurnRel (angle : Int) (r : SCResponse) : Int :=
  angle - r.headingErr.getD 0

/-- `getSensorData(sensorId)`: `return int(response.get('data', -1))`. -/
def getSensorData (r : SCResponse) : Int :=
  r.data.getD (-1)

/-! ### Sensor name lookup (`getSensorDataByName`) -/

/-- The module-level `sensors` mapping of `serial_interface.py`. -/
def sensors : List (String × Nat) :=
  [("heading", 0), ("accel.x", 1), ("accel.y", 2), ("accel.z", 3),
   ("ultrasonic.left", 4), ("ultrasonic.front", 5),
   ("ultrasonic.right", 6), ("ultrasonic.back", 7)]

/-- The methods actually defined on class `SerialCommand` in
`serial_interface.py` (attribute lookup on `self` succeeds exactly for
these names). -/
def serialCommandMethodNames : List String :=
  ["putCommand", "getResponse", "runCommand", "quit", "botStop",
   "botPWMDrive", "botSet", "botMove", "botFollow", "botTurnAbs",
   "botTurnRel", "armSetAngle", "armUp", "armDown", "gripperSetAngle",
   "gripperOpen", "gripperClose", "armPick", "armDrop",
   "getAllSensorData", "getSensorData", "getSensorDataByName",
   "compassReset"]

/-- `getSensorDataByName(sensorName)`: look the name up in `sensors`;
on a hit it calls `self.getSensorValue(sensorId)` — an attribute that the
class does not define, so the call raises `AttributeError` (modelled as
`Except.error`); on a miss it returns `-1`.  The `ok` branch under the
membership test is unreachable since `"getSensorValue"` is not among the
defined methods. -/
def getSensorDataByName (sensorName : String) : Except String Int :=
  match sensors.lookup sensorName with
  | some sid =>
      if serialCommandMethodNames.contains "getSensorValue" then
        Except.ok (Int.ofNat sid)
      else
        Except.error "AttributeError: getSensorValue"
  | none => Except.ok (-1)

/-! ### Particle filter data model (`localizer/particles.py`)

Floats become real numbers; numpy arrays become lists.  The sensor
descriptor carries the mount pose fields of `Ultrasonic(name, Pose(x, y,
theta), noise)` from `std_sensors.py`: positional offsets `ox`, `oy`, the
relative bearing `angle`, plus the matrix row `index` used by
`sense_all`. -/

structure Sensor where
  index : Nat
  angle : ℝ
  ox : ℝ
  oy : ℝ
  noise : ℝ

structure Robot where
  sensors : List Sensor
  noise_turn : ℝ
  noise_move : ℝ

/-- Occupancy map: a rectangular grid of unit cells, `xdim` by `ydim`
length units, with a wall predicate on cell coordinates. -/
structure Map where
  xcells : Nat
  ycells : Nat
  isWall : Int → Int → Bool

def Map.xdim (m : Map) : ℝ := m.xcells

def Map.ydim (m : Map) : ℝ := m.ycells

/-- The particle set: parallel arrays `x`, `y`, `theta`, the weight array
`prob`, and the per-sensor matrix `sensed` (row `s.index` holds the
predicted readings of that sensor for all particles). -/
structure Particles where
  n : Nat
  x : List ℝ
  y : List ℝ
  theta : List ℝ
  prob : List ℝ
  sensed : Nat → List ℝ

/-- Python float `%` with a positive modulus: `t % (2*pi)`. -/
noncomputable def mod2pi (t : ℝ) : ℝ :=
  t - 2 * Real.pi * ⌊t / (2 * Real.pi)⌋

/-- `random.gauss(mu, sigma)` with the standard-normal draw `z` made
explicit: the sampled value is `mu + sigma * z`. -/
def gauss (mu sigma z : ℝ) : ℝ := mu + sigma * z

/-- `numpy.clip(v, lo, hi)`. -/
noncomputable def clip (v lo hi : ℝ) : ℝ := max lo (min v hi)

/-! ### Predict step (`Particles.move`) -/

/-- The heading update of one particle in `Particles.move`:
`theta[i] = (theta[i] + dtheta) % (2*pi)` followed by
`theta[i] = gauss(theta[i], dtheta * self.robot.noise_turn)`. -/
noncomputable def moveTheta (robot : Robot) (dtheta : ℝ) (t z : ℝ) : ℝ :=
  gauss (mod2pi (t + dtheta)) (dtheta * robot.noise_turn) z

/-- `Particles.move(dtheta, forward)`.  `ztheta`, `zx`, `zy` are the
per-particle standard-normal draws of the three `gauss` calls.  Headings
are updated first; each position component gets Gaussian noise scaled by
its displacement, and finally `x`/`y` are clipped to the map box. -/
noncomputable def Particles.move (ps : Particles) (m : Map) (robot : Robot)
    (dtheta forward : ℝ) (ztheta zx zy : List ℝ) : Particles :=
  let theta1 := List.zipWith (moveTheta robot dtheta) ps.theta ztheta
  let x1 := List.zipWith (fun p z =>
    gauss (p.1 + forward * Real.cos p.2) (forward * Real.cos p.2 * robot.noise_move) z)
    (ps.x.zip theta1) zx
  let y1 := List.zipWith (fun p z =>
    gauss (p.1 + forward * Real.sin p.2) (forward * Real.sin p.2 * robot.noise_move) z)
    (ps.y.zip theta1) zy
  { n := ps.n
    x := x1.map (fun v => clip v 0 m.xdim)
    y := y1.map (fun v => clip v 0 m.ydim)
    theta := theta1
    prob := ps.prob
    sensed := ps.sensed }

/-! ### Ray casting

`particles.py` imports `wall` from a `raycast` module that is not part of
the sources at hand, so it is modelled from the spec. -/

/-- Modelled from the spec: the traversal loop of `raycast.wall` /
`ray_cast(x, y, theta, ...)` — "traces a ray from (x, y) in direction θ
through the grid, stepping one cell at a time; returns the first wall
cell center hit, or None if the ray leaves the map without hitting a
wall".  `c`/`s` are cos θ / sin θ, `i` the current step count, and the
fuel bounds the traversal; `(-1, -1)` encodes the None answer (the caller
tests `wx == -1`). -/
noncomputable def wallFrom (m : Map) (x y c s : ℝ) : Nat → Nat → ℝ × ℝ
  | _, 0 => (-1, -1)
  | i, fuel + 1 =>
      let px := x + i * c
      let py := y + i * s
      if px < 0 ∨ m.xdim < px ∨ py < 0 ∨ m.ydim < py then (-1, -1)
      else if m.isWall ⌊px⌋ ⌊py⌋ then ((⌊px⌋ : ℝ) + 1 / 2, (⌊py⌋ : ℝ) + 1 / 2)
      else wallFrom m x y c s (i + 1) fuel

/-- Modelled from the spec: `raycast.wall(x, y, theta, map)`; see
`wallFrom`.  Enough fuel to cross the whole grid. -/
noncomputable def wall (x y theta : ℝ) (m : Map) : ℝ × ℝ :=
  wallFrom m x y (Real.cos theta) (Real.sin theta) 0 (m.xcells + m.ycells + 2)

/-! ### Sensing (`Particles.sense`, `Particles.sense_all`) -/

/-- The body of the loop in `Particles.sense` for one particle at
`(x, y, t)`: ray-cast from the particle position with bearing
`(t + rel_theta) % (2*pi)`; no wall gives `norm([xdim, ydim])`, a hit at
`(wx, wy)` gives `norm([x - wx, y - wy])`. -/
noncomputable def senseOne (m : Map) (x y t rel_theta : ℝ) : ℝ :=
  let st := mod2pi (t + rel_theta)
  let w := wall x y st m
  if w.1 = -1 then Real.sqrt (m.xdim ^ 2 + m.ydim ^ 2)
  else Real.sqrt ((x - w.1) ^ 2 + (y - w.2) ^ 2)

/-- `Particles.sense(rel_theta, map)`: the vector of predicted readings
over all particles. -/
noncomputable def Particles.sense (ps : Particles) (rel_theta : ℝ) (m : Map) :
    List ℝ :=
  (List.range ps.n).map (fun i =>
    senseOne m (ps.x.getD i 0) (ps.y.getD i 0) (ps.theta.getD i 0) rel_theta)

/-- `Particles.sense_all(map)`: `for s in self.robot.sensors:
self.sensed[s.index] = self.sense(s.angle, map)`. -/
noncomputable def Particles.senseAll (ps : Particles) (robot : Robot) (m : Map) :
    Nat → List ℝ :=
  robot.sensors.foldl
    (fun acc s => Function.update acc s.index (ps.sense s.angle m)) ps.sensed

/-- The prediction claim C1 ascribes to the code, stated from the claim's
words: ray-cast from a world-frame origin equal to the particle pose
offset by the sensor's mount pose (offsets rotated by the heading), and
the Euclidean distance measured from that origin. -/
noncomputable def senseOneClaim (m : Map) (sen : Sensor) (x y t : ℝ) : ℝ :=
  let ox := x + sen.ox * Real.cos t - sen.oy * Real.sin t
  let oy := y + sen.ox * Real.sin t + sen.oy * Real.cos t
  let st := mod2pi (t + sen.angle)
  let w := wall ox oy st m
  if w.1 = -1 then Real.sqrt (m.xdim ^ 2 + m.ydim ^ 2)
  else Real.sqrt ((ox - w.1) ^ 2 + (oy - w.2) ^ 2)

/-! ### Weighting and resampling (`Particles.resample`) -/

/-- Modelled from the spec: `probability.gaussian` (the module is not
among the sources at hand) is the 1-D Gaussian PDF
"φ(sensed; σ = fixed_weight_sigma, μ = measured)", taken with the
argument order of the call site `gaussian(value, sigma, mu)`. -/
noncomputable def gaussianPdf (value sigma mu : ℝ) : ℝ :=
  Real.exp (-((value - mu) ^ 2) / (2 * sigma ^ 2)) / (sigma * Real.sqrt (2 * Real.pi))

/-- The weighting loop of `Particles.resample`: for each particle `i`,
`prob[i] = 1.0` then `prob[i] *= gaussian(sensed[s.index][i], 1.5,
measured[s.index])` over all sensors. -/
noncomputable def computeWeights (sensorList : List Sensor)
    (sensed : Nat → List ℝ) (measured : Nat → ℝ) (n : Nat) : List ℝ :=
  (List.range n).map (fun i =>
    sensorList.foldl
      (fun acc s => acc * gaussianPdf ((sensed s.index).getD i 0) 1.5 (measured s.index))
      1)

/-- Python `max(weights)` (numpy array max; the weights are non-empty in
use, where the default agrees with the head). -/
noncomputable def listMax (l : List ℝ) : ℝ := l.foldl max (l.headD 0)

/-- The inner while loop of the wheel resampler:
`while beta > self.prob[cur]: beta -= self.prob[cur];
cur = (cur+1) % self.numpts`, with fuel for the recursion. -/
noncomputable def spin (prob : List ℝ) (numpts : Nat) :
    Nat → ℝ → Nat → ℝ × Nat
  | 0, beta, cur => (beta, cur)
  | fuel + 1, beta, cur =>
      if prob.getD cur 0 < beta then
        spin prob numpts fuel (beta - prob.getD cur 0) ((cur + 1) % numpts)
      else (beta, cur)

/-- The outer for loop of the wheel resampler.  Each entry of `draws` is
one `random()` draw in `[0, 1)`; an iteration adds `draw * step` to
`beta`, spins the wheel, and appends the 5-tuple
`(cur, x[cur], y[cur], theta[cur], prob[cur])`. -/
noncomputable def wheelAux (prob xs ys ths : List ℝ) (numpts : Nat)
    (step : ℝ) (fuel : Nat) : List ℝ → ℝ → Nat → List (Nat × ℝ × ℝ × ℝ × ℝ)
  | [], _, _ => []
  | r :: rs, beta, cur =>
      let beta1 := beta + r * step
      let res := spin prob numpts fuel beta1 cur
      (res.2, xs.getD res.2 0, ys.getD res.2 0, ths.getD res.2 0,
        prob.getD res.2 0) ::
        wheelAux prob xs ys ths numpts step fuel rs res.1 res.2

/-- `Particles.resample(measured)`: recompute the weights from `sensed`
and `measured`, then run the low-variance wheel with
`step = max(prob) * 2.0`, start index `int(random() * numpts)` (the draw
`r0`), and one `random()` draw per output particle (`draws`); finally
replace `x`, `y`, `theta` with the resampled copies.  `prob` and
`sensed` are left as they are. -/
noncomputable def Particles.resample (ps : Particles) (robot : Robot)
    (measured : Nat → ℝ) (r0 : ℝ) (draws : List ℝ) (fuel : Nat) : Particles :=
  let prob := computeWeights robot.sensors ps.sensed measured ps.n
  let step := listMax prob * 2
  let cur0 := (⌊r0 * (ps.n : ℝ)⌋).toNat
  let new := wheelAux prob ps.x ps.y ps.theta ps.n step fuel draws 0 cur0
  { n := ps.n
    x := new.map (fun e => e.2.1)
    y := new.map (fun e => e.2.2.1)
    theta := new.map (fun e => e.2.2.2.1)
    prob := prob
    sensed := ps.sensed }

/-- The fallback behavior claim C6 requires of a degenerate update,
stated from the claim's words: each of the N output particles is drawn
uniformly at random from the current particle set (draw `r` in `[0, 1)`
selects index `int(r * N)`). -/
noncomputable def uniformResampleClaim (xs : List ℝ) (numpts : Nat)
    (draws : List ℝ) : List ℝ :=
  draws.map (fun r => xs.getD (⌊r * (numpts : ℝ)⌋).toNat 0)

/-! ### Pose estimation (`Particles.guess`) -/

noncomputable def mean (l : List ℝ) : ℝ := l.sum / l.length

/-- `numpy.arctan2(y, x)`. -/
noncomputable def atan2 (y x : ℝ) : ℝ :=
  if 0 < x then Real.arctan (y / x)
  else if x < 0 then
    (if 0 ≤ y then Real.arctan (y / x) + Real.pi
     else Real.arctan (y / x) - Real.pi)
  else
    (if 0 < y then Real.pi / 2 else if y < 0 then -(Real.pi / 2) else 0)

/-- The `v` property: `array(zip(cos(self.theta), sin(self.theta)))`. -/
noncomputable def Particles.v (ps : Particles) : List (ℝ × ℝ) :=
  ps.theta.map (fun t => (Real.cos t, Real.sin t))

/-- `Particles.guess()`: componentwise means of `x` and `y`, and
`arctan2(vy, vx) % (2*pi)` where `(vx, vy) = self.v.mean(axis=0)`. -/
noncomputable def Particles.guess (ps : Particles) : ℝ × ℝ × ℝ :=
  let vx := mean (ps.v.map Prod.fst)
  let vy := mean (ps.v.map Prod.snd)
  (mean ps.x, mean ps.y, mod2pi (atan2 vy vx))

/-! ### Helper lemmas -/

lemma two_pi_pos : (0 : ℝ) < 2 * Real.pi := by positivity

lemma mod2pi_nonneg (t : ℝ) : 0 ≤ mod2pi t := by
  have h1 : (⌊t / (2 * Real.pi)⌋ : ℝ) * (2 * Real.pi) ≤ t :=
    (le_div_iff₀ two_pi_pos).mp (Int.floor_le _)
  unfold mod2pi
  nlinarith [h1]

lemma mod2pi_lt (t : ℝ) : mod2pi t < 2 * Real.pi := by
  have h1 : t < (⌊t / (2 * Real.pi)⌋ + 1 : ℝ) * (2 * Real.pi) :=
    (div_lt_iff₀ two_pi_pos).mp (Int.lt_floor_add_one _)
  unfold mod2pi
  nlinarith [h1]

lemma mod2pi_eq_self {t : ℝ} (h0 : 0 ≤ t) (h1 : t < 2 * Real.pi) :
    mod2pi t = t := by
  have hfl : ⌊t / (2 * Real.pi)⌋ = 0 := by
    rw [Int.floor_eq_zero_iff]
    refine ⟨by positivity, ?_⟩
    rw [div_lt_one two_pi_pos]
    exact h1
  unfold mod2pi
  rw [hfl]
  simp

lemma clip_mem (v hi : ℝ) (h : 0 ≤ hi) :
    0 ≤ clip v 0 hi ∧ clip v 0 hi ≤ hi :=
  ⟨le_max_left 0 _, max_le h (min_le_right v hi)⟩

lemma spin_snd_lt (prob : List ℝ) (numpts : Nat) (hn : 0 < numpts) :
    ∀ (fuel : Nat) (beta : ℝ) (cur : Nat), cur < numpts →
      (spin prob numpts fuel beta cur).2 < numpts := by
  intro fuel
  induction fuel with
  | zero => intro beta cur h; simpa [spin] using h
  | succ k ih =>
      intro beta cur h
      rw [spin]
      split
      · exact ih _ _ (Nat.mod_lt _ hn)
      · simpa using h

lemma wheelAux_length (prob xs ys ths : List ℝ) (numpts : Nat) (step : ℝ)
    (fuel : Nat) :
    ∀ (rs : List ℝ) (beta : ℝ) (cur : Nat),
      (wheelAux prob xs ys ths numpts step fuel rs beta cur).length = rs.length := by
  intro rs
  induction rs with
  | nil => intro beta cur; simp [wheelAux]
  | cons r rs ih => intro beta cur; simp [wheelAux, ih]

lemma wheelAux_entries (prob xs ys ths : List ℝ) (numpts : Nat) (step : ℝ)
    (fuel : Nat) (hn : 0 < numpts) :
    ∀ (rs : List ℝ) (beta : ℝ) (cur : Nat), cur < numpts →
      ∀ e ∈ wheelAux prob xs ys ths numpts step fuel rs beta cur,
        e.1 < numpts ∧ e.2.1 = xs.getD e.1 0 ∧ e.2.2.1 = ys.getD e.1 0 ∧
          e.2.2.2.1 = ths.getD e.1 0 := by
  intro rs
  induction rs with
  | nil => intro beta cur hc e he; simp [wheelAux] at he
  | cons r rs ih =>
      intro beta cur hc e he
      rw [wheelAux] at he
      rcases List.mem_cons.mp he with h | h
      · subst h
        exact ⟨spin_snd_lt prob numpts hn fuel _ cur hc, rfl, rfl, rfl⟩
      · exact ih _ _ (spin_snd_lt prob numpts hn fuel _ cur hc) e h

lemma foldl_update_not_mem (g : Sensor → List ℝ) :
    ∀ (l : List Sensor) (init : Nat → List ℝ) (j : Nat),
      (∀ u ∈ l, u.index ≠ j) →
      (l.foldl (fun (acc : Nat → List ℝ) (u : Sensor) => Function.update acc u.index (g u)) init) j = init j := by
  intro l
  induction l with
  | nil => intro init j _; rfl
  | cons t ts ih =>
      intro init j hj
      simp only [List.foldl_cons]
      rw [ih _ _ (fun u hu => hj u (List.mem_cons_of_mem _ hu))]
      exact Function.update_noteq (Ne.symm (hj t (List.mem_cons_self _ _))) _ _

lemma foldl_update_lookup (g : Sensor → List ℝ) :
    ∀ (l : List Sensor) (init : Nat → List ℝ),
      (l.map Sensor.index).Nodup →
      ∀ s ∈ l,
        (l.foldl (fun (acc : Nat → List ℝ) (u : Sensor) => Function.update acc u.index (g u)) init) s.index = g s := by
  intro l
  induction l with
  | nil => intro init _ s hs; cases hs
  | cons t ts ih =>
      intro init hnd s hs
      simp only [List.map_cons, List.nodup_cons] at hnd
      simp only [List.foldl_cons]
      rcases List.mem_cons.mp hs with rfl | hmem
      · have hunt : ∀ u ∈ ts, u.index ≠ s.index := by
          intro u hu hcontra
          exact hnd.1 (hcontra ▸ List.mem_map_of_mem Sensor.index hu)
        rw [foldl_update_not_mem g ts _ _ hunt, Function.update_same]
      · exact ih _ hnd.2 s hmem

lemma computeWeights_getD (sensorList : List Sensor) (sensed : Nat → List ℝ)
    (measured : Nat → ℝ) (n i : Nat) (hi : i < n) :
    (computeWeights sensorList sensed measured n).getD i 0 =
      (sensorList.map
        (fun s => gaussianPdf ((sensed s.index).getD i 0) 1.5 (measured s.index))).prod := by
  have hlen : i < (computeWeights sensorList sensed measured n).length := by
    simpa [computeWeights] using hi
  rw [List.getD_eq_getElem _ _ hlen]
  simp only [computeWeights, List.getElem_map, List.getElem_range]
  rw [List.prod_eq_foldl, List.foldl_map]

/-! ### Claim C7: response-map keying -/

/-- Claim C7: every non-blank, successfully parsed response is stored in
the response map keyed by the response's own `id` field; in pipelined
mode (`recvLoop`) a response lacking an `id` field is stored under key
-1, while in sequential mode (`execLoop`) it is stored under the id of
the command that was sent. -/
theorem C7_response_keying (rm : List (JVal × JObj)) (sentId : Int)
    (d : JObj) (hnb : d ≠ []) :
    lookupResponse (recvLoopBody rm (.line d)).1 (dictGet d "id" (.jint (-1)))
      = some d ∧
    lookupResponse (execLoopBody rm sentId (.line d)).1
      (dictGet d "id" (.jint sentId)) = some d ∧
    (d.lookup "id" = none →
      dictGet d "id" (.jint (-1)) = .jint (-1) ∧
      dictGet d "id" (.jint sentId) = .jint sentId) ∧
    (∀ v, d.lookup "id" = some v →
      dictGet d "id" (.jint (-1)) = v ∧ dictGet d "id" (.jint sentId) = v) := by
  have hemp : d.isEmpty = false := by
    cases d with
    | nil => exact absurd rfl hnb
    | cons a l => rfl
  refine ⟨?_, ?_, ?_, ?_⟩
  · simp [recvLoopBody, hemp, lookupResponse, storeResponse, List.lookup]
  · simp [execLoopBody, hemp, lookupResponse, storeResponse, List.lookup]
  · intro h
    simp [dictGet, h]
  · intro v h
    simp [dictGet, h]

theorem C7_response_keying_witness :
    (([("id", JVal.jint 7)] : JObj) ≠ []) ∧
    (lookupResponse (recvLoopBody [] (.line [("id", JVal.jint 7)])).1
      (dictGet [("id", JVal.jint 7)] "id" (.jint (-1)))
        = some [("id", JVal.jint 7)] ∧
    lookupResponse (execLoopBody [] 3 (.line [("id", JVal.jint 7)])).1
      (dictGet [("id", JVal.jint 7)] "id" (.jint 3))
        = some [("id", JVal.jint 7)] ∧
    (([("id", JVal.jint 7)] : JObj).lookup "id" = none →
      dictGet [("id", JVal.jint 7)] "id" (.jint (-1)) = .jint (-1) ∧
      dictGet [("id", JVal.jint 7)] "id" (.jint 3) = .jint 3) ∧
    (∀ v, ([("id", JVal.jint 7)] : JObj).lookup "id" = some v →
      dictGet [("id", JVal.jint 7)] "id" (.jint (-1)) = v ∧
      dictGet [("id", JVal.jint 7)] "id" (.jint 3) = v)) :=
  ⟨by simp, C7_response_keying [] 3 [("id", JVal.jint 7)] (by simp)⟩

/-! ### Claim C8: the id on the "quit" sentinel -/

/-- Claim C8 is refuted at a concrete input: `SerialCommand.quit()` goes
through `putCommand`, which enqueues the shutdown payload under the
fresh random id (here the draw 5), not under id -1. -/
theorem C8_counterexample :
    commandQuit [] 5 = [((5 : Int), "quit")] ∧
    ((5 : Int), "quit") ≠ ((-1 : Int), "quit") := by
  exact ⟨rfl, by decide⟩

/-- Claim C8 (amended): the multiplexer's own `quit()` enqueues the
record `(-1, "quit")`, while the caller-facing `SerialCommand.quit()`
enqueues `"quit"` under the fresh random 15-bit id drawn by
`putCommand`, which is non-negative and hence never -1. -/
theorem C8_amended (q : List (Int × String)) (rid : Nat)
    (_h : rid < max_command_id) :
    interfaceQuit q = q ++ [((-1 : Int), "quit")] ∧
    commandQuit q rid = q ++ [((rid : Int), "quit")] ∧
    ((rid : Int), "quit") ≠ ((-1 : Int), "quit") := by
  refine ⟨rfl, rfl, ?_⟩
  intro hc
  have : (rid : Int) = -1 := congrArg Prod.fst hc
  omega

theorem C8_amended_witness :
    5 < max_command_id ∧
    (interfaceQuit [] = [((-1 : Int), "quit")] ∧
    commandQuit [] 5 = [((5 : Int), "quit")] ∧
    ((5 : Int), "quit") ≠ ((-1 : Int), "quit")) :=
  ⟨by norm_num [max_command_id], by
    simpa using C8_amended [] 5 (by norm_num [max_command_id])⟩

/-! ### Claim C9: wrapper fallbacks on missing response fields -/

/-- Claim C9: the domain command wrappers never raise on a response with
missing fields; the boolean wrappers (`botStop`, `botPWMDrive`) default
the `result` field to False, and the measurement wrappers (`botSet`,
`botMove`, `botFollow`, `botTurnAbs`, `botTurnRel`) echo the input
distance/angle when the corresponding field (`distance`, `absHeading`,
`headingErr`) is absent. -/
theorem C9_wrapper_fallbacks (r : SCResponse) (distance angle left right : Int) :
    (r.result = none → botStop r = false ∧ botPWMDrive left right r = false) ∧
    (r.distance = none → (botSet distance angle r).1 = distance ∧
      botMove distance r = distance ∧ botFollow distance r = distance) ∧
    (r.absHeading = none → (botSet distance angle r).2 = angle ∧
      botTurnAbs angle r = angle) ∧
    (r.headingErr = none → botTurnRel angle r = angle) := by
  refine ⟨?_, ?_, ?_, ?_⟩ <;> intro h <;>
    simp [botStop, botPWMDrive, botSet, botMove, botFollow, botTurnAbs,
      botTurnRel, h]

theorem C9_wrapper_fallbacks_witness :
    botStop ⟨none, none, none, none, none⟩ = false ∧
    botPWMDrive 1 2 ⟨none, none, none, none, none⟩ = false ∧
    (botSet 7 3 ⟨none, none, none, none, none⟩).1 = 7 ∧
    botMove 7 ⟨none, none, none, none, none⟩ = 7 ∧
    botFollow 7 ⟨none, none, none, none, none⟩ = 7 ∧
    (botSet 7 3 ⟨none, none, none, none, none⟩).2 = 3 ∧
    botTurnAbs 3 ⟨none, none, none, none, none⟩ = 3 ∧
    botTurnRel 3 ⟨none, none, none, none, none⟩ = 3 := by
  have h := C9_wrapper_fallbacks ⟨none, none, none, none, none⟩ 7 3 1 2
  exact ⟨(h.1 rfl).1, (h.1 rfl).2, (h.2.1 rfl).1, (h.2.1 rfl).2.1,
    (h.2.1 rfl).2.2, (h.2.2.1 rfl).1, (h.2.2.1 rfl).2, h.2.2.2 rfl⟩

/-! ### Claim C10: `getSensorDataByName` raises exactly on known names -/

/-- Claim C10: for every sensor name that is a key of the module-level
`sensors` mapping, `getSensorDataByName` never returns a value — it
invokes the undefined method `getSensorValue` and raises — and it
returns the -1 fallback exactly when the name is not a recognized sensor
name (it raises iff the name is recognized). -/
theorem C10_getSensorDataByName (sensorName : String) :
    ((∃ e, getSensorDataByName sensorName = Except.error e) ↔
      (sensors.lookup sensorName).isSome) ∧
    ((sensors.lookup sensorName).isSome = false →
      getSensorDataByName sensorName = Except.ok (-1)) := by
  have hmeth : serialCommandMethodNames.contains "getSensorValue" = false := by
    decide
  constructor
  · constructor
    · rintro ⟨e, he⟩
      unfold getSensorDataByName at he
      cases hl : sensors.lookup sensorName with
      | none => rw [hl] at he; cases he
      | some sid => simp [hl]
    · intro hs
      rcases Option.isSome_iff_exists.mp hs with ⟨sid, hl⟩
      exact ⟨"AttributeError: getSensorValue", by
        simp [getSensorDataByName, hl, hmeth]
        decide⟩
  · intro hs
    have hl : sensors.lookup sensorName = none := by
      cases h : sensors.lookup sensorName with
      | none => rfl
      | some sid => rw [h] at hs; cases hs
    simp [getSensorDataByName, hl]

theorem C10_getSensorDataByName_witness :
    (∃ e, getSensorDataByName "heading" = Except.error e) ∧
    getSensorDataByName "unknown.sensor" = Except.ok (-1) :=
  ⟨(C10_getSensorDataByName "heading").1.mpr (by decide),
   (C10_getSensorDataByName "unknown.sensor").2 (by decide)⟩

/-! ### Claim C2: state of the particles after `move` -/

/-- Claim C2 is refuted: `move` adds the Gaussian turn noise after
normalizing the heading, so the final heading can leave [0, 2π).  With
one particle at heading 0, a commanded turn of π, `noise_turn` = 1 and
the turn-noise draw 10, the post-move heading is π + 10π = 11π. -/
theorem C2_move_counterexample :
    ¬ (∀ t ∈ (Particles.move ⟨1, [0], [0], [0], [0], fun _ => []⟩
        ⟨4, 4, fun _ _ => false⟩ ⟨[], 1, 0⟩ Real.pi 0 [10] [0] [0]).theta,
        0 ≤ t ∧ t < 2 * Real.pi) := by
  intro hall
  have h0 : mod2pi (0 + Real.pi) = Real.pi := by
    rw [zero_add]
    exact mod2pi_eq_self Real.pi_pos.le (by linarith [Real.pi_pos])
  have hth : (Particles.move ⟨1, [0], [0], [0], [0], fun _ => []⟩
      ⟨4, 4, fun _ _ => false⟩ ⟨[], 1, 0⟩ Real.pi 0 [10] [0] [0]).theta
      = [mod2pi (0 + Real.pi) + Real.pi * 1 * 10] := rfl
  have hmem := hall (mod2pi (0 + Real.pi) + Real.pi * 1 * 10)
    (by rw [hth]; exact List.mem_singleton_self _)
  rw [h0] at hmem
  nlinarith [Real.pi_pos, hmem.2]

/-- Claim C2 (amended): after `move`, every particle's position (x, y)
lies in the map bounding box [0, xdim] × [0, ydim] (positions are
clipped), and each heading equals the normalized heading
`(theta + dtheta) mod 2π` plus the Gaussian turn noise
`dtheta * noise_turn * z` — noise is added after normalization, so the
heading itself need not lie in [0, 2π). -/
theorem C2_move_amended (ps : Particles) (m : Map) (robot : Robot)
    (dtheta forward : ℝ) (ztheta zx zy : List ℝ) :
    (∀ v ∈ (ps.move m robot dtheta forward ztheta zx zy).x,
      0 ≤ v ∧ v ≤ m.xdim) ∧
    (∀ v ∈ (ps.move m robot dtheta forward ztheta zx zy).y,
      0 ≤ v ∧ v ≤ m.ydim) ∧
    (ps.move m robot dtheta forward ztheta zx zy).theta =
      List.zipWith (fun t z => mod2pi (t + dtheta) + dtheta * robot.noise_turn * z)
        ps.theta ztheta := by
  refine ⟨?_, ?_, rfl⟩
  · intro v hv
    simp only [Particles.move, List.mem_map] at hv
    rcases hv with ⟨w, _, rfl⟩
    exact clip_mem w m.xdim (Nat.cast_nonneg _)
  · intro v hv
    simp only [Particles.move, List.mem_map] at hv
    rcases hv with ⟨w, _, rfl⟩
    exact clip_mem w m.ydim (Nat.cast_nonneg _)

theorem C2_move_amended_witness :
    (0 ≤ (Particles.move ⟨1, [0], [0], [0], [0], fun _ => []⟩
        ⟨4, 4, fun _ _ => false⟩ ⟨[], 1, 0⟩ Real.pi 0 [10] [0] [0]).x.getD 0 0 ∧
      (Particles.move ⟨1, [0], [0], [0], [0], fun _ => []⟩
        ⟨4, 4, fun _ _ => false⟩ ⟨[], 1, 0⟩ Real.pi 0 [10] [0] [0]).x.getD 0 0 ≤
        (⟨4, 4, fun _ _ => false⟩ : Map).xdim) ∧
    (Particles.move ⟨1, [0], [0], [0], [0], fun _ => []⟩
        ⟨4, 4, fun _ _ => false⟩ ⟨[], 1, 0⟩ Real.pi 0 [10] [0] [0]).theta =
      List.zipWith (fun t z => mod2pi (t + Real.pi) + Real.pi * (1 : ℝ) * z)
        [0] [10] := by
  have h := C2_move_amended ⟨1, [0], [0], [0], [0], fun _ => []⟩
    ⟨4, 4, fun _ _ => false⟩ ⟨[], 1, 0⟩ Real.pi 0 [10] [0] [0]
  refine ⟨?_, h.2.2⟩
  have hlen : 0 < (Particles.move ⟨1, [0], [0], [0], [0], fun _ => []⟩
      ⟨4, 4, fun _ _ => false⟩ ⟨[], 1, 0⟩ Real.pi 0 [10] [0] [0]).x.length := by
    simp [Particles.move]
  have hmem : (Particles.move ⟨1, [0], [0], [0], [0], fun _ => []⟩
      ⟨4, 4, fun _ _ => false⟩ ⟨[], 1, 0⟩ Real.pi 0 [10] [0] [0]).x.getD 0 0 ∈
      (Particles.move ⟨1, [0], [0], [0], [0], fun _ => []⟩
      ⟨4, 4, fun _ _ => false⟩ ⟨[], 1, 0⟩ Real.pi 0 [10] [0] [0]).x := by
    rw [List.getD_eq_getElem _ _ hlen]
    exact List.getElem_mem hlen
  exact h.1 _ hmem

/-! ### Claim C4: the weighting formula -/

/-- Claim C4: in the weighting step the weight of particle i is the
product over all sensors of the 1-D Gaussian PDF at `sensed[s][i]` with
standard deviation the fixed hyperparameter 1.5 length units — not the
sensor's own noise σ, as witnessed by invariance under rewriting every
sensor's noise field — and mean `measured[s]`. -/
theorem C4_weighting (sensorList : List Sensor) (sensed : Nat → List ℝ)
    (measured : Nat → ℝ) (n i : Nat) (hi : i < n) :
    (computeWeights sensorList sensed measured n).getD i 0 =
      (sensorList.map (fun s =>
        gaussianPdf ((sensed s.index).getD i 0) 1.5 (measured s.index))).prod ∧
    ∀ f : Sensor → ℝ,
      computeWeights (sensorList.map (fun s => { s with noise := f s }))
        sensed measured n = computeWeights sensorList sensed measured n := by
  refine ⟨computeWeights_getD _ _ _ _ _ hi, ?_⟩
  intro f
  unfold computeWeights
  simp [List.foldl_map]

theorem C4_weighting_witness :
    0 < 1 ∧
    ((computeWeights [⟨0, 0, 0, 0, 1 / 20⟩] (fun _ => [2]) (fun _ => 3) 1).getD 0 0 =
      (([⟨0, 0, 0, 0, 1 / 20⟩] : List Sensor).map (fun s =>
        gaussianPdf (((fun _ => [2]) s.index).getD 0 0) 1.5 ((fun _ => (3 : ℝ)) s.index))).prod ∧
    ∀ f : Sensor → ℝ,
      computeWeights (([⟨0, 0, 0, 0, 1 / 20⟩] : List Sensor).map
          (fun s => { s with noise := f s })) (fun _ => [2]) (fun _ => 3) 1 =
        computeWeights [⟨0, 0, 0, 0, 1 / 20⟩] (fun _ => [2]) (fun _ => 3) 1) :=
  ⟨by norm_num,
   C4_weighting [⟨0, 0, 0, 0, 1 / 20⟩] (fun _ => [2]) (fun _ => 3) 1 0 (by norm_num)⟩

/-! ### Claim C5: pose estimation -/

/-- Claim C5: for a non-empty particle set, `guess` returns the triple
(mean x, mean y, atan2(mean sin θ, mean cos θ) mod 2π): the angular
component is the unit-vector average of the headings, normalized to
[0, 2π). -/
theorem C5_guess (ps : Particles) (_hne : ps.theta ≠ []) :
    ps.guess = (mean ps.x, mean ps.y,
      mod2pi (atan2 (mean (ps.theta.map Real.sin)) (mean (ps.theta.map Real.cos)))) ∧
    0 ≤ ps.guess.2.2 ∧ ps.guess.2.2 < 2 * Real.pi := by
  have hv1 : ps.v.map Prod.fst = ps.theta.map Real.cos := by
    simp [Particles.v, List.map_map, Function.comp]
  have hv2 : ps.v.map Prod.snd = ps.theta.map Real.sin := by
    simp [Particles.v, List.map_map, Function.comp]
  refine ⟨?_, mod2pi_nonneg _, mod2pi_lt _⟩
  show (mean ps.x, mean ps.y,
    mod2pi (atan2 (mean (ps.v.map Prod.snd)) (mean (ps.v.map Prod.fst)))) = _
  rw [hv1, hv2]

theorem C5_guess_witness :
    (([0] : List ℝ) ≠ []) ∧
    ((⟨1, [1], [2], [0], [0], fun _ => []⟩ : Particles).guess =
      (mean [1], mean [2],
        mod2pi (atan2 (mean (([0] : List ℝ).map Real.sin))
          (mean (([0] : List ℝ).map Real.cos)))) ∧
    0 ≤ (⟨1, [1], [2], [0], [0], fun _ => []⟩ : Particles).guess.2.2 ∧
    (⟨1, [1], [2], [0], [0], fun _ => []⟩ : Particles).guess.2.2 < 2 * Real.pi) :=
  ⟨by simp, C5_guess ⟨1, [1], [2], [0], [0], fun _ => []⟩ (by simp)⟩

/-! ### Claim C3: the low-variance wheel resampler -/

/-- Claim C3 is refuted on its last conjunct: `resample` never resets
the weights to 1/N.  With one particle (N = 1, so 1/N = 1), predicted
reading 0 and measured reading 0, the weight left in `prob` after
`resample` is the weighting-step value 1/(1.5·√(2π)), not 1. -/
theorem C3_resample_counterexample :
    (Particles.resample ⟨1, [0], [0], [0], [0], fun _ => [0]⟩
      ⟨[⟨0, 0, 0, 0, 1 / 20⟩], 0, 0⟩ (fun _ => 0) 0 [0] 1).prob.getD 0 0 ≠ 1 := by
  have hval : (Particles.resample ⟨1, [0], [0], [0], [0], fun _ => [0]⟩
      ⟨[⟨0, 0, 0, 0, 1 / 20⟩], 0, 0⟩ (fun _ => 0) 0 [0] 1).prob.getD 0 0
      = gaussianPdf 0 1.5 0 := by
    simp [Particles.resample, computeWeights]
  rw [hval]
  unfold gaussianPdf
  have hs : (2 : ℝ) < Real.sqrt (2 * Real.pi) := by
    have h4 : (4 : ℝ) < 2 * Real.pi := by nlinarith [Real.pi_gt_three]
    nlinarith [Real.sq_sqrt (by positivity : (0:ℝ) ≤ 2 * Real.pi),
      Real.sqrt_nonneg (2 * Real.pi)]
  have hexp : Real.exp (-((0 : ℝ) - 0) ^ 2 / (2 * (1.5 : ℝ) ^ 2)) = 1 := by
    norm_num
  rw [hexp]
  have hpos : (3 : ℝ) < (1.5 : ℝ) * Real.sqrt (2 * Real.pi) := by nlinarith
  have hlt : (1 : ℝ) / ((1.5 : ℝ) * Real.sqrt (2 * Real.pi)) < 1 := by
    rw [div_lt_one (by linarith)]
    linarith
  exact ne_of_lt hlt

/-- For any valid output position `k`, the `k`-th particle emitted by
the wheel copies the pose of the current particle at some index `j < N`. -/
lemma wheelAux_getD (prob xs ys ths : List ℝ) (numpts : Nat) (step : ℝ)
    (fuel : Nat) (rs : List ℝ) (beta : ℝ) (cur : Nat) (hn : 0 < numpts)
    (hcur : cur < numpts) (k : Nat) (hk : k < rs.length) :
    ∃ j, j < numpts ∧
      ((wheelAux prob xs ys ths numpts step fuel rs beta cur).map
        (fun e => e.2.1)).getD k 0 = xs.getD j 0 ∧
      ((wheelAux prob xs ys ths numpts step fuel rs beta cur).map
        (fun e => e.2.2.1)).getD k 0 = ys.getD j 0 ∧
      ((wheelAux prob xs ys ths numpts step fuel rs beta cur).map
        (fun e => e.2.2.2.1)).getD k 0 = ths.getD j 0 := by
  have hklen : k < (wheelAux prob xs ys ths numpts step fuel rs beta cur).length := by
    rw [wheelAux_length]
    exact hk
  have hentry := wheelAux_entries prob xs ys ths numpts step fuel hn rs beta cur
    hcur _ (List.getElem_mem hklen)
  refine ⟨(wheelAux prob xs ys ths numpts step fuel rs beta cur)[k].1,
    hentry.1, ?_, ?_, ?_⟩
  · rw [List.getD_eq_getElem _ _ (by simpa using hklen), List.getElem_map]
    exact hentry.2.1
  · rw [List.getD_eq_getElem _ _ (by simpa using hklen), List.getElem_map]
    exact hentry.2.2.1
  · rw [List.getD_eq_getElem _ _ (by simpa using hklen), List.getElem_map]
    exact hentry.2.2.2

/-- Claim C3 (amended): `resample(measured)` replaces the particle set
via the low-variance wheel — step = 2 · (max weight), start index
⌊r0 · N⌋ for a uniform draw r0, β incremented by draw · step per output
particle and advanced past particles while β exceeds the current weight
— and it emits exactly N particles, each output particle's pose a copy
of some current particle's pose.  The weights are NOT reset to 1/N: the
`prob` array keeps the values computed by the weighting step. -/
theorem C3_resample_amended (ps : Particles) (robot : Robot)
    (measured : Nat → ℝ) (r0 : ℝ) (draws : List ℝ) (fuel : Nat)
    (h0 : 0 ≤ r0) (h1 : r0 < 1) (hn : 0 < ps.n) (hd : draws.length = ps.n) :
    (ps.resample robot measured r0 draws fuel).x.length = ps.n ∧
    (ps.resample robot measured r0 draws fuel).y.length = ps.n ∧
    (ps.resample robot measured r0 draws fuel).theta.length = ps.n ∧
    (∀ k, k < ps.n → ∃ j, j < ps.n ∧
      (ps.resample robot measured r0 draws fuel).x.getD k 0 = ps.x.getD j 0 ∧
      (ps.resample robot measured r0 draws fuel).y.getD k 0 = ps.y.getD j 0 ∧
      (ps.resample robot measured r0 draws fuel).theta.getD k 0 = ps.theta.getD j 0) ∧
    (ps.resample robot measured r0 draws fuel).prob =
      computeWeights robot.sensors ps.sensed measured ps.n := by
  have hcur : (⌊r0 * (ps.n : ℝ)⌋).toNat < ps.n := by
    have hflo : (0 : ℤ) ≤ ⌊r0 * (ps.n : ℝ)⌋ := Int.floor_nonneg.mpr (by positivity)
    have hfhi : ⌊r0 * (ps.n : ℝ)⌋ < (ps.n : ℤ) := by
      apply Int.floor_lt.mpr
      push_cast
      calc r0 * (ps.n : ℝ) < 1 * (ps.n : ℝ) := by
            apply mul_lt_mul_of_pos_right h1
            exact_mod_cast hn
        _ = (ps.n : ℝ) := one_mul _
    omega
  have hxlen : (ps.resample robot measured r0 draws fuel).x.length = ps.n := by
    simp [Particles.resample, wheelAux_length, hd]
  have hylen : (ps.resample robot measured r0 draws fuel).y.length = ps.n := by
    simp [Particles.resample, wheelAux_length, hd]
  have htlen : (ps.resample robot measured r0 draws fuel).theta.length = ps.n := by
    simp [Particles.resample, wheelAux_length, hd]
  refine ⟨hxlen, hylen, htlen, ?_, rfl⟩
  intro k hk
  exact wheelAux_getD (computeWeights robot.sensors ps.sensed measured ps.n)
    ps.x ps.y ps.theta ps.n
    (listMax (computeWeights robot.sensors ps.sensed measured ps.n) * 2)
    fuel draws 0 (⌊r0 * (ps.n : ℝ)⌋).toNat hn hcur k (by omega)

theorem C3_resample_amended_witness :
    ((0 : ℝ) ≤ 0 ∧ (0 : ℝ) < 1 ∧
      0 < (⟨1, [0], [0], [0], [0], fun _ => [0]⟩ : Particles).n ∧
      ([(0 : ℝ)]).length = (⟨1, [0], [0], [0], [0], fun _ => [0]⟩ : Particles).n) ∧
    ((Particles.resample ⟨1, [0], [0], [0], [0], fun _ => [0]⟩
        ⟨[⟨0, 0, 0, 0, 1 / 20⟩], 0, 0⟩ (fun _ => 0) 0 [0] 1).x.length = 1 ∧
      (Particles.resample ⟨1, [0], [0], [0], [0], fun _ => [0]⟩
        ⟨[⟨0, 0, 0, 0, 1 / 20⟩], 0, 0⟩ (fun _ => 0) 0 [0] 1).y.length = 1 ∧
      (Particles.resample ⟨1, [0], [0], [0], [0], fun _ => [0]⟩
        ⟨[⟨0, 0, 0, 0, 1 / 20⟩], 0, 0⟩ (fun _ => 0) 0 [0] 1).theta.length = 1 ∧
      (∀ k, k < 1 → ∃ j, j < 1 ∧
        (Particles.resample ⟨1, [0], [0], [0], [0], fun _ => [0]⟩
          ⟨[⟨0, 0, 0, 0, 1 / 20⟩], 0, 0⟩ (fun _ => 0) 0 [0] 1).x.getD k 0 =
          ([(0 : ℝ)]).getD j 0 ∧
        (Particles.resample ⟨1, [0], [0], [0], [0], fun _ => [0]⟩
          ⟨[⟨0, 0, 0, 0, 1 / 20⟩], 0, 0⟩ (fun _ => 0) 0 [0] 1).y.getD k 0 =
          ([(0 : ℝ)]).getD j 0 ∧
        (Particles.resample ⟨1, [0], [0], [0], [0], fun _ => [0]⟩
          ⟨[⟨0, 0, 0, 0, 1 / 20⟩], 0, 0⟩ (fun _ => 0) 0 [0] 1).theta.getD k 0 =
          ([(0 : ℝ)]).getD j 0) ∧
      (Particles.resample ⟨1, [0], [0], [0], [0], fun _ => [0]⟩
        ⟨[⟨0, 0, 0, 0, 1 / 20⟩], 0, 0⟩ (fun _ => 0) 0 [0] 1).prob =
        computeWeights [⟨0, 0, 0, 0, 1 / 20⟩] (fun _ => [0]) (fun _ => 0) 1) :=
  ⟨⟨le_refl 0, by norm_num, by norm_num, by norm_num⟩,
   C3_resample_amended ⟨1, [0], [0], [0], [0], fun _ => [0]⟩
     ⟨[⟨0, 0, 0, 0, 1 / 20⟩], 0, 0⟩ (fun _ => 0) 0 [0] 1
     (le_refl 0) (by norm_num) (by norm_num) (by norm_num)⟩

/-! ### Claim C6: degenerate (all-zero) weights -/

lemma spin_not_gt (prob : List ℝ) (numpts fuel : Nat) (beta : ℝ) (cur : Nat)
    (h : ¬ prob.getD cur 0 < beta) :
    spin prob numpts (fuel + 1) beta cur = (beta, cur) := by
  rw [spin, if_neg h]

/-- Claim C6 evaluated against the code at the failing input: with every
weight zero (the float-underflow state the claim is about), the wheel
has step = 0 and β stays 0, so the inner while loop never advances and
every output particle is the particle at the (single, uniformly drawn)
start index — here two copies of particle 0 with x = 0.  There is no
fallback to uniform random resampling: the claimed fallback, given the
same draws 0.9 and 0.9, would output particle 1 (x = 5) twice.  (No
division occurs in the wheel, so no division by zero arises.) -/
theorem C6_degenerate_wheel :
    wheelAux [0, 0] [0, 5] [0, 5] [0, 5] 2 (listMax [0, 0] * 2) 1
      [9 / 10, 9 / 10] 0 0
      = [(0, 0, 0, 0, 0), (0, 0, 0, 0, 0)] ∧
    uniformResampleClaim [0, 5] 2 [9 / 10, 9 / 10] = [5, 5] := by
  constructor
  · have hstep : listMax [(0 : ℝ), 0] * 2 = 0 := by simp [listMax]
    have hspin0 : spin [(0 : ℝ), 0] 2 1 0 0 = (0, 0) :=
      spin_not_gt [(0 : ℝ), 0] 2 0 0 0 (by simp)
    rw [hstep]
    simp [wheelAux, hspin0]
  · have hfl : ⌊(9 / 10 : ℝ) * 2⌋ = 1 := by norm_num
    simp [uniformResampleClaim, hfl]

/-! ### Claim C1: the sensing prediction -/

lemma wallFrom_miss (m : Map) (x y c s : ℝ) (i fuel : Nat)
    (hin : ¬ (x + i * c < 0 ∨ m.xdim < x + i * c ∨ y + i * s < 0 ∨
      m.ydim < y + i * s))
    (hw : m.isWall ⌊x + i * c⌋ ⌊y + i * s⌋ = false) :
    wallFrom m x y c s i (fuel + 1) = wallFrom m x y c s (i + 1) fuel := by
  simp only [wallFrom]
  rw [if_neg hin, if_neg (by simp [hw])]

lemma wallFrom_hit (m : Map) (x y c s : ℝ) (i fuel : Nat)
    (hin : ¬ (x + i * c < 0 ∨ m.xdim < x + i * c ∨ y + i * s < 0 ∨
      m.ydim < y + i * s))
    (hw : m.isWall ⌊x + i * c⌋ ⌊y + i * s⌋ = true) :
    wallFrom m x y c s i (fuel + 1) =
      ((⌊x + i * c⌋ : ℝ) + 1 / 2, (⌊y + i * s⌋ : ℝ) + 1 / 2) := by
  simp only [wallFrom]
  rw [if_neg hin, if_pos hw]

/-- A 4×4 map whose third cell column (cell x-index 2) is a wall. -/
def C1map : Map := ⟨4, 4, fun cx _ => cx == 2⟩

/-- A sensor mounted 1 unit ahead of the robot center, facing forward. -/
noncomputable def C1sensor : Sensor := ⟨0, 0, 1, 0, 1 / 20⟩

noncomputable def C1robot : Robot := ⟨[C1sensor], 0, 0⟩

/-- One particle at (1/2, 1/2) with heading 0. -/
noncomputable def C1ps : Particles := ⟨1, [1 / 2], [1 / 2], [0], [0], fun _ => []⟩

lemma C1_wall_eval : wall (1 / 2) (1 / 2) 0 C1map = (5 / 2, 1 / 2) := by
  unfold wall
  rw [Real.cos_zero, Real.sin_zero]
  rw [show C1map.xcells + C1map.ycells + 2 = 9 + 1 from rfl]
  rw [wallFrom_miss C1map (1 / 2) (1 / 2) 1 0 0 9
    (by norm_num [C1map, Map.xdim, Map.ydim]) (by norm_num [C1map])]
  rw [show (9 : Nat) = 8 + 1 from rfl]
  rw [wallFrom_miss C1map (1 / 2) (1 / 2) 1 0 (0 + 1) 8
    (by norm_num [C1map, Map.xdim, Map.ydim]) (by norm_num [C1map])]
  rw [show (8 : Nat) = 7 + 1 from rfl]
  rw [wallFrom_hit C1map (1 / 2) (1 / 2) 1 0 (0 + 1 + 1) 7
    (by norm_num [C1map, Map.xdim, Map.ydim]) (by norm_num [C1map])]
  norm_num [Prod.ext_iff]

lemma C1_wallClaim_eval : wall (3 / 2) (1 / 2) 0 C1map = (5 / 2, 1 / 2) := by
  unfold wall
  rw [Real.cos_zero, Real.sin_zero]
  rw [show C1map.xcells + C1map.ycells + 2 = 9 + 1 from rfl]
  rw [wallFrom_miss C1map (3 / 2) (1 / 2) 1 0 0 9
    (by norm_num [C1map, Map.xdim, Map.ydim]) (by norm_num [C1map])]
  rw [show (9 : Nat) = 8 + 1 from rfl]
  rw [wallFrom_hit C1map (3 / 2) (1 / 2) 1 0 (0 + 1) 8
    (by norm_num [C1map, Map.xdim, Map.ydim]) (by norm_num [C1map])]
  norm_num [Prod.ext_iff]

lemma C1_senseOne_eval : senseOne C1map (1 / 2) (1 / 2) 0 0 = 2 := by
  have hm : mod2pi (0 + 0 : ℝ) = 0 := by
    rw [add_zero]
    exact mod2pi_eq_self le_rfl two_pi_pos
  simp only [senseOne, hm, C1_wall_eval]
  norm_num
  rw [show (4 : ℝ) = 2 ^ 2 by norm_num]
  exact Real.sqrt_sq (by norm_num)

lemma C1_senseOneClaim_eval : senseOneClaim C1map C1sensor (1 / 2) (1 / 2) 0 = 1 := by
  have hox : (1 / 2 : ℝ) + C1sensor.ox * Real.cos 0 - C1sensor.oy * Real.sin 0
      = 3 / 2 := by
    simp [C1sensor]
    norm_num
  have hoy : (1 / 2 : ℝ) + C1sensor.ox * Real.sin 0 + C1sensor.oy * Real.cos 0
      = 1 / 2 := by
    simp [C1sensor]
  have hst : mod2pi (0 + C1sensor.angle) = 0 := by
    rw [show (0 : ℝ) + C1sensor.angle = 0 by simp [C1sensor]]
    exact mod2pi_eq_self le_rfl two_pi_pos
  simp only [senseOneClaim, hox, hoy, hst, C1_wallClaim_eval]
  norm_num

/-- Claim C1 is refuted at a concrete input: `sense` ray-casts from the
particle's own position and never applies the sensor's positional mount
offsets (only the mount bearing).  With one particle at (1/2, 1/2, 0),
a forward sensor mounted 1 unit ahead, and a wall in cell column 2, the
code stores distance 2 (ray from the particle position), while the
claimed prediction — ray origin offset by the mount pose — is 1. -/
theorem C1_sense_counterexample :
    (C1ps.senseAll C1robot C1map) 0 = [2] ∧
    senseOneClaim C1map C1sensor (1 / 2) (1 / 2) 0 = 1 ∧ ((2 : ℝ) ≠ 1) := by
  refine ⟨?_, C1_senseOneClaim_eval, by norm_num⟩
  have h1 : C1ps.senseAll C1robot C1map 0 = C1ps.sense C1sensor.angle C1map := by
    show (Function.update C1ps.sensed C1sensor.index
      (C1ps.sense C1sensor.angle C1map)) 0 = _
    rw [show C1sensor.index = 0 from rfl]
    simp
  rw [h1]
  have h2 : C1ps.sense C1sensor.angle C1map
      = [senseOne C1map (1 / 2) (1 / 2) 0 0] := by
    simp [Particles.sense, C1ps, C1sensor, List.range_succ]
  rw [h2, C1_senseOne_eval]

/-- Claim C1 (amended): for a sensor list with pairwise-distinct indices,
`sense_all` predicts `sensed[s.index][i]` by ray-casting from the
particle's own position (x_i, y_i) — the positional mount offsets are
not applied; the mount pose only offsets the ray bearing, which is
`(theta_i + s.angle) mod 2π` — and stores the Euclidean distance from
the particle position to the first wall hit, or the map-diagonal
sentinel √(xdim² + ydim²) when the ray hits no wall. -/
theorem C1_sense_amended (ps : Particles) (robot : Robot) (m : Map)
    (hnd : (robot.sensors.map Sensor.index).Nodup)
    (sen : Sensor) (hs : sen ∈ robot.sensors) (i : Nat) (hi : i < ps.n) :
    (ps.senseAll robot m sen.index).getD i 0 =
      (if (wall (ps.x.getD i 0) (ps.y.getD i 0)
            (mod2pi (ps.theta.getD i 0 + sen.angle)) m).1 = -1 then
        Real.sqrt (m.xdim ^ 2 + m.ydim ^ 2)
      else
        Real.sqrt ((ps.x.getD i 0 - (wall (ps.x.getD i 0) (ps.y.getD i 0)
            (mod2pi (ps.theta.getD i 0 + sen.angle)) m).1) ^ 2 +
          (ps.y.getD i 0 - (wall (ps.x.getD i 0) (ps.y.getD i 0)
            (mod2pi (ps.theta.getD i 0 + sen.angle)) m).2) ^ 2)) := by
  have h1 : ps.senseAll robot m sen.index = ps.sense sen.angle m :=
    foldl_update_lookup (fun u => ps.sense u.angle m) robot.sensors
      ps.sensed hnd sen hs
  rw [h1]
  have hlen : i < (ps.sense sen.angle m).length := by
    simpa [Particles.sense] using hi
  rw [List.getD_eq_getElem _ _ hlen]
  simp only [Particles.sense, List.getElem_map, List.getElem_range]
  rfl

theorem C1_sense_amended_witness :
    ((C1robot.sensors.map Sensor.index).Nodup ∧ C1sensor ∈ C1robot.sensors ∧
      0 < C1ps.n) ∧
    (C1ps.senseAll C1robot C1map C1sensor.index).getD 0 0 =
      (if (wall (C1ps.x.getD 0 0) (C1ps.y.getD 0 0)
            (mod2pi (C1ps.theta.getD 0 0 + C1sensor.angle)) C1map).1 = -1 then
        Real.sqrt (C1map.xdim ^ 2 + C1map.ydim ^ 2)
      else
        Real.sqrt ((C1ps.x.getD 0 0 - (wall (C1ps.x.getD 0 0) (C1ps.y.getD 0 0)
            (mod2pi (C1ps.theta.getD 0 0 + C1sensor.angle)) C1map).1) ^ 2 +
          (C1ps.y.getD 0 0 - (wall (C1ps.x.getD 0 0) (C1ps.y.getD 0 0)
            (mod2pi (C1ps.theta.getD 0 0 + C1sensor.angle)) C1map).2) ^ 2)) :=
  ⟨⟨by simp [C1robot, C1sensor], by simp [C1robot], by norm_num [C1ps]⟩,
   C1_sense_amended C1ps C1robot C1map (by simp [C1robot, C1sensor])
     C1sensor (by simp [C1robot]) 0 (by norm_num [C1ps])⟩

end HighLevel
